import Mathlib

/-! eth-healthcheck: the sync prober and the `/health` handler

A shallow embedding of `main.go`.  The program is a thin layer over three
library calls (`json.Marshal`, `http.Client.Do`, `json.Decoder.Decode`), so the
embedding has three parts:

* the byte-level behaviour of `encoding/json` that the program relies on: the
  scanner of `scanner.go` as a step function over bytes, `Decoder.readValue`,
  which reads the first value of the stream and no more, and the decoding of
  that value into `EthSyncingResponse` (keys are matched to fields without
  regard to case, a later member overwrites an earlier one, `null` leaves a
  field alone, a value of the wrong kind is a type error);
* the network, which is a parameter (`Net`): what `url.Parse` says about a URL
  and what the upstream answers to a request, so that every theorem holds for
  every behaviour of the network;
* `isNodeSyncing`, the handler registered on `/health`, and the choice of the
  upstream URL in `main`.  The two functions are written as a `Program`, the
  sequence of their calls that reach outside the program, and run against a
  network by `Program.run`, which alone writes the `World`: it records every
  call of `client.Do` and the HTTP requests `net/http` sends for it.

Go's `int` is taken to be 64 bits wide.  A `float64` is represented by the
literal it was parsed from, since the program looks only at the dynamic type of
`Result`.
-/

namespace EthHealthcheck

/-! ## Bytes -/

/-- A byte of a request or response body. -/
abbrev Byte := Nat

/-- The bytes of an ASCII text. -/
def ascii (s : String) : List Byte := s.toList.map Char.toNat

/-! ## JSON values as the scanner delimits them -/

/-- A JSON value as delimited by the scanner.  Literals keep their source
bytes: a number keeps its digits, a string the bytes between its quotes with
the escapes still in place, exactly the slices `decode.go` works on. -/
inductive JValue where
  | null
  | bool (b : Bool)
  | number (lit : List Byte)
  | string (raw : List Byte)
  | array (elems : List JValue)
  | object (members : List (List Byte × JValue))

/-- An entry of the scanner's `parseState` stack (`parseObjectKey`,
`parseObjectValue`, `parseArrayValue`), carrying what has been read of the
enclosing object or array so far. -/
inductive Frame where
  | objectKey (members : List (List Byte × JValue))
  | objectValue (members : List (List Byte × JValue)) (key : List Byte)
  | arrayValue (elems : List JValue)

/-- The scanner's current step function (`stateBeginValue`, `stateInString`,
`state1`, ...).  A state inside a literal carries the bytes read of it, and
`endValue` carries the value that has just been completed. -/
inductive Step where
  | beginValue
  | beginValueOrEmpty
  | beginStringOrEmpty
  | beginString
  | inString (raw : List Byte)
  | inStringEsc (raw : List Byte)
  | inStringEscU (raw : List Byte)
  | inStringEscU1 (raw : List Byte)
  | inStringEscU12 (raw : List Byte)
  | inStringEscU123 (raw : List Byte)
  | neg (lit : List Byte)
  | s1 (lit : List Byte)
  | s0 (lit : List Byte)
  | dot (lit : List Byte)
  | dot0 (lit : List Byte)
  | e (lit : List Byte)
  | eSign (lit : List Byte)
  | e0 (lit : List Byte)
  | t
  | tr
  | tru
  | f
  | fa
  | fal
  | fals
  | n
  | nu
  | nul
  | endValue (v : JValue)

/-- The scanner of `scanner.go`: a step function and the `parseState` stack
(innermost frame first). -/
structure Scanner where
  step : Step
  parseState : List Frame

/-- What a step reports to `readValue`. -/
inductive Op where
  | more (s : Scanner)
  | endContainer (s : Scanner)
  | done (v : JValue)
  | error

/-- Nesting limit of the scanner (`maxNestingDepth`). -/
def maxNestingDepth : Nat := 10000

/-- Whitespace between JSON tokens (`isSpace`). -/
def isSpace (c : Byte) : Bool := c == 0x20 || c == 0x09 || c == 0x0D || c == 0x0A

/-- Decimal digit. -/
def isDigit (c : Byte) : Bool := 0x30 ≤ c && c ≤ 0x39

/-- Hexadecimal digit, as accepted after `\u`. -/
def isHex (c : Byte) : Bool :=
  isDigit c || (0x61 ≤ c && c ≤ 0x66) || (0x41 ≤ c && c ≤ 0x46)

/-- Enter an object or array (`pushParseState`): fails beyond the nesting limit. -/
def pushParseState (s : Scanner) (fr : Frame) (next : Step) : Op :=
  if s.parseState.length + 1 ≤ maxNestingDepth then
    .more { step := next, parseState := fr :: s.parseState }
  else .error

/-- The scanner after a value `v` is complete, looking at byte `c`
(`stateEndValue`).  With an empty stack the top-level value was complete before
`c` (`stateEndTop` answers `scanEnd` whatever `c` is). -/
def stateEndValue (v : JValue) (stack : List Frame) (c : Byte) : Op :=
  match stack with
  | [] => .done v
  | fr :: rest =>
    if isSpace c then .more { step := .endValue v, parseState := stack }
    else
      match fr with
      | .objectKey members =>
        match v with
        | .string key =>
          if c == 0x3A then
            .more { step := .beginValue, parseState := .objectValue members key :: rest }
          else .error
        | _ => .error
      | .objectValue members key =>
        if c == 0x2C then
          .more { step := .beginString, parseState := .objectKey (members ++ [(key, v)]) :: rest }
        else if c == 0x7D then
          .endContainer { step := .endValue (.object (members ++ [(key, v)])), parseState := rest }
        else .error
      | .arrayValue elems =>
        if c == 0x2C then
          .more { step := .beginValue, parseState := .arrayValue (elems ++ [v]) :: rest }
        else if c == 0x5D then
          .endContainer { step := .endValue (.array (elems ++ [v])), parseState := rest }
        else .error

/-- The scanner at the start of a value (`stateBeginValue`). -/
def stateBeginValue (s : Scanner) (c : Byte) : Op :=
  if isSpace c then .more { s with step := .beginValue }
  else if c == 0x7B then pushParseState s (.objectKey []) .beginStringOrEmpty
  else if c == 0x5B then pushParseState s (.arrayValue []) .beginValueOrEmpty
  else if c == 0x22 then .more { s with step := .inString [] }
  else if c == 0x2D then .more { s with step := .neg [c] }
  else if c == 0x30 then .more { s with step := .s0 [c] }
  else if c == 0x74 then .more { s with step := .t }
  else if c == 0x66 then .more { s with step := .f }
  else if c == 0x6E then .more { s with step := .n }
  else if 0x31 ≤ c && c ≤ 0x39 then .more { s with step := .s1 [c] }
  else .error

/-- After the integer part of a number, or after its leading `0` (`state0`). -/
def state0 (s : Scanner) (lit : List Byte) (c : Byte) : Op :=
  if c == 0x2E then .more { s with step := .dot (lit ++ [c]) }
  else if c == 0x65 || c == 0x45 then .more { s with step := .e (lit ++ [c]) }
  else stateEndValue (.number lit) s.parseState c

/-- After the `e` of an exponent and its optional sign (`stateESign`). -/
def stateESign (s : Scanner) (lit : List Byte) (c : Byte) : Op :=
  if isDigit c then .more { s with step := .e0 (lit ++ [c]) } else .error

/-- One step of the scanner on byte `c`. -/
def Scanner.next (s : Scanner) (c : Byte) : Op :=
  match s.step with
  | .beginValue => stateBeginValue s c
  | .beginValueOrEmpty =>
    if isSpace c then .more s
    else if c == 0x5D then
      match s.parseState with
      | .arrayValue elems :: rest =>
        .endContainer { step := .endValue (.array elems), parseState := rest }
      | _ => .error
    else stateBeginValue s c
  | .beginStringOrEmpty =>
    if isSpace c then .more s
    else if c == 0x7D then
      match s.parseState with
      | .objectKey members :: rest =>
        .endContainer { step := .endValue (.object members), parseState := rest }
      | _ => .error
    else if c == 0x22 then .more { s with step := .inString [] }
    else .error
  | .beginString =>
    if isSpace c then .more s
    else if c == 0x22 then .more { s with step := .inString [] }
    else .error
  | .inString raw =>
    if c == 0x22 then .more { s with step := .endValue (.string raw) }
    else if c == 0x5C then .more { s with step := .inStringEsc (raw ++ [c]) }
    else if c < 0x20 then .error
    else .more { s with step := .inString (raw ++ [c]) }
  | .inStringEsc raw =>
    if c == 0x62 || c == 0x66 || c == 0x6E || c == 0x72 || c == 0x74
        || c == 0x5C || c == 0x2F || c == 0x22 then
      .more { s with step := .inString (raw ++ [c]) }
    else if c == 0x75 then .more { s with step := .inStringEscU (raw ++ [c]) }
    else .error
  | .inStringEscU raw =>
    if isHex c then .more { s with step := .inStringEscU1 (raw ++ [c]) } else .error
  | .inStringEscU1 raw =>
    if isHex c then .more { s with step := .inStringEscU12 (raw ++ [c]) } else .error
  | .inStringEscU12 raw =>
    if isHex c then .more { s with step := .inStringEscU123 (raw ++ [c]) } else .error
  | .inStringEscU123 raw =>
    if isHex c then .more { s with step := .inString (raw ++ [c]) } else .error
  | .neg lit =>
    if c == 0x30 then .more { s with step := .s0 (lit ++ [c]) }
    else if 0x31 ≤ c && c ≤ 0x39 then .more { s with step := .s1 (lit ++ [c]) }
    else .error
  | .s1 lit =>
    if isDigit c then .more { s with step := .s1 (lit ++ [c]) } else state0 s lit c
  | .s0 lit => state0 s lit c
  | .dot lit =>
    if isDigit c then .more { s with step := .dot0 (lit ++ [c]) } else .error
  | .dot0 lit =>
    if isDigit c then .more { s with step := .dot0 (lit ++ [c]) }
    else if c == 0x65 || c == 0x45 then .more { s with step := .e (lit ++ [c]) }
    else stateEndValue (.number lit) s.parseState c
  | .e lit =>
    if c == 0x2B || c == 0x2D then .more { s with step := .eSign (lit ++ [c]) }
    else stateESign s lit c
  | .eSign lit => stateESign s lit c
  | .e0 lit =>
    if isDigit c then .more { s with step := .e0 (lit ++ [c]) }
    else stateEndValue (.number lit) s.parseState c
  | .t => if c == 0x72 then .more { s with step := .tr } else .error
  | .tr => if c == 0x75 then .more { s with step := .tru } else .error
  | .tru => if c == 0x65 then .more { s with step := .endValue (.bool true) } else .error
  | .f => if c == 0x61 then .more { s with step := .fa } else .error
  | .fa => if c == 0x6C then .more { s with step := .fal } else .error
  | .fal => if c == 0x73 then .more { s with step := .fals } else .error
  | .fals => if c == 0x65 then .more { s with step := .endValue (.bool false) } else .error
  | .n => if c == 0x75 then .more { s with step := .nu } else .error
  | .nu => if c == 0x6C then .more { s with step := .nul } else .error
  | .nul => if c == 0x6C then .more { s with step := .endValue .null } else .error
  | .endValue v => stateEndValue v s.parseState c

/-- A fresh scanner (`scanner.reset`). -/
def Scanner.reset : Scanner := { step := .beginValue, parseState := [] }

/-- A failure of the network: of `client.Do`, or of a read of the reply body. -/
inductive TransportError where
  | connectionRefused
  | timeout
  | other (msg : String)
deriving DecidableEq, Repr

/-- Why `Decoder.Decode` failed: the body ended too early (`io.EOF` when it
held nothing but spaces, else `io.ErrUnexpectedEOF`), a read of the body
failed, the scanner met a byte it cannot accept, or a value did not fit its
target. -/
inductive DecodeError where
  | eof
  | unexpectedEOF
  | read (e : TransportError)
  | scan
  | unmarshalType (value : String) (goType : String)
deriving DecidableEq, Repr

/-- Scanning loop of `Decoder.readValue`: feed bytes until the first value is
complete and return it with the bytes that follow it.  `bodyErr` is how the
stream ends after its bytes: `none` for `io.EOF`, `some e` for a failed read.
On `io.EOF` the scanner is offered one invented space, as the decoder does; a
failed read is returned as it is. -/
def readValueFrom (bodyErr : Option TransportError) :
    Scanner → List Byte → Except DecodeError (JValue × List Byte)
  | s, [] =>
    match bodyErr with
    | some e => .error (.read e)
    | none =>
      match s.next 0x20 with
      | .done v => .ok (v, [])
      | _ => .error .unexpectedEOF
  | s, c :: cs =>
    match s.next c with
    | .done v => .ok (v, c :: cs)
    | .endContainer s1 =>
      match s1.next 0x20 with
      | .done v => .ok (v, cs)
      | _ => readValueFrom bodyErr s1 cs
    | .more s1 => readValueFrom bodyErr s1 cs
    | .error => .error .scan

/-- First JSON value of a body, with the rest of the body
(`Decoder.readValue`).  An input that ends before the value does fails with
`io.ErrUnexpectedEOF`, or with `io.EOF` when it holds nothing but spaces. -/
def readValue (body : List Byte) (bodyErr : Option TransportError) :
    Except DecodeError (JValue × List Byte) :=
  match readValueFrom bodyErr Scanner.reset body with
  | .error .unexpectedEOF =>
    if body.any (fun c => !isSpace c) then .error .unexpectedEOF else .error .eof
  | r => r

/-! ## Strings: unquoting and field names -/

/-- Value of a hexadecimal digit. -/
def hexVal (c : Byte) : Nat :=
  if isDigit c then c - 0x30
  else if 0x61 ≤ c && c ≤ 0x66 then c - 0x61 + 10
  else c - 0x41 + 10

/-- The four hexadecimal digits at the head of the input as a number
(`getu4`, after its `\u`); `none` when they are not four hex digits. -/
def hex4 : List Byte → Option Nat
  | a :: b :: c :: d :: _ =>
    if isHex a && isHex b && isHex c && isHex d then
      some (((hexVal a * 16 + hexVal b) * 16 + hexVal c) * 16 + hexVal d)
    else none
  | _ => none

/-- UTF-8 encoding of a rune (`utf8.EncodeRune`): surrogates and values past
U+10FFFF are written as U+FFFD. -/
def encodeRune (r : Nat) : List Byte :=
  if r < 0x80 then [r]
  else if r < 0x800 then [0xC0 + r / 64, 0x80 + r % 64]
  else if (0xD800 ≤ r && r < 0xE000) || 0x10FFFF < r then [0xEF, 0xBF, 0xBD]
  else if r < 0x10000 then [0xE0 + r / 4096, 0x80 + r / 64 % 64, 0x80 + r % 64]
  else [0xF0 + r / 262144, 0x80 + r / 4096 % 64, 0x80 + r / 64 % 64, 0x80 + r % 64]

/-- Continuation byte of a UTF-8 sequence. -/
def isCont (c : Byte) : Bool := 0x80 ≤ c && c ≤ 0xBF

/-- Length of the UTF-8 sequence that starts the input, 0 when it is
malformed (`utf8.DecodeRune` answering `RuneError, 1`).  The first byte fixes
the length and the range of the second byte. -/
def runeLen : List Byte → Nat
  | [] => 0
  | p0 :: rest =>
    if p0 < 0x80 then 1
    else if p0 < 0xC2 then 0
    else if p0 < 0xE0 then
      match rest with
      | b1 :: _ => if isCont b1 then 2 else 0
      | _ => 0
    else if p0 < 0xF0 then
      match rest with
      | b1 :: b2 :: _ =>
        let lo := if p0 == 0xE0 then 0xA0 else 0x80
        let hi := if p0 == 0xED then 0x9F else 0xBF
        if lo ≤ b1 && b1 ≤ hi && isCont b2 then 3 else 0
      | _ => 0
    else if p0 < 0xF5 then
      match rest with
      | b1 :: b2 :: b3 :: _ =>
        let lo := if p0 == 0xF0 then 0x90 else 0x80
        let hi := if p0 == 0xF4 then 0x8F else 0xBF
        if lo ≤ b1 && b1 ≤ hi && isCont b2 && isCont b3 then 4 else 0
      | _ => 0
    else 0

/-- The rune of a `\uXXXX` escape whose digits start the input, and how many
bytes after the `u` it uses: 4, or 10 when a high surrogate is followed by a
`\uXXXX` low surrogate (`utf16.DecodeRune`).  A surrogate without its partner
becomes U+FFFD. -/
def unquoteU (digits : List Byte) : List Byte × Nat :=
  match hex4 digits with
  | none => ([], 4)
  | some rr =>
    if 0xD800 ≤ rr && rr < 0xE000 then
      match digits.drop 4 with
      | bs :: u :: more =>
        match hex4 more with
        | some rr1 =>
          if bs == 0x5C && u == 0x75 && rr < 0xDC00 && 0xDC00 ≤ rr1 && rr1 < 0xE000 then
            (encodeRune ((rr - 0xD800) * 1024 + (rr1 - 0xDC00) + 0x10000), 10)
          else (encodeRune 0xFFFD, 4)
        | none => (encodeRune 0xFFFD, 4)
      | _ => (encodeRune 0xFFFD, 4)
    else (encodeRune rr, 4)

/-- The byte a one-letter escape stands for. -/
def unescape (c : Byte) : Byte :=
  if c == 0x62 then 0x08
  else if c == 0x66 then 0x0C
  else if c == 0x6E then 0x0A
  else if c == 0x72 then 0x0D
  else if c == 0x74 then 0x09
  else c

/-- Worker of `unquote`; `skip` counts bytes that an earlier step has already
consumed. -/
def unquoteFrom : Nat → List Byte → List Byte
  | _, [] => []
  | skip + 1, _ :: rest => unquoteFrom skip rest
  | 0, c :: rest =>
    if c == 0x5C then
      match rest with
      | [] => []
      | esc :: more =>
        if esc == 0x75 then (unquoteU more).1 ++ unquoteFrom ((unquoteU more).2 + 1) rest
        else unescape esc :: unquoteFrom 1 rest
    else if c < 0x80 then c :: unquoteFrom 0 rest
    else if runeLen (c :: rest) == 0 then encodeRune 0xFFFD ++ unquoteFrom 0 rest
    else (c :: rest).take (runeLen (c :: rest)) ++ unquoteFrom (runeLen (c :: rest) - 1) rest

/-- The Go string a JSON string literal denotes (`unquoteBytes`, applied to the
bytes between the quotes): escapes are replaced and malformed UTF-8 is coerced
to U+FFFD. -/
def unquote (raw : List Byte) : List Byte := unquoteFrom 0 raw

/-- Upper-case an ASCII letter. -/
def upper (c : Byte) : Byte := if 0x61 ≤ c && c ≤ 0x7A then c - 0x20 else c

/-- Worker of `foldName`; `skip` counts bytes already consumed. -/
def foldFrom : Nat → List Byte → List Byte
  | _, [] => []
  | skip + 1, _ :: rest => foldFrom skip rest
  | 0, c :: rest =>
    if c == 0xC5 && rest.head? == some 0xBF then 0x53 :: foldFrom 1 rest
    else if c == 0xE2 && rest.head? == some 0x84 && rest.tail.head? == some 0xAA then
      0x4B :: foldFrom 2 rest
    else upper c :: foldFrom 0 rest

/-- Case folding of an object key (`foldName`): ASCII letters are upper-cased,
and the two runes outside ASCII whose fold set holds an ASCII letter, U+017F
(long s) and U+212A (Kelvin sign), become `S` and `K`.  Other runes outside
ASCII are left as they are; Go replaces them by the least rune of their fold
set, which is never ASCII, so comparisons with an ASCII name agree. -/
def foldName (key : List Byte) : List Byte := foldFrom 0 key

/-- The fields of `EthSyncingResponse`, by their `json` tags. -/
inductive Field where
  | jsonrpc
  | id
  | result
deriving DecidableEq, Repr

/-- The struct field an object key is decoded into: the field whose tag is the
key, else the field whose tag equals it under case folding, else none. -/
def fieldFor (key : List Byte) : Option Field :=
  if key = ascii "jsonrpc" then some .jsonrpc
  else if key = ascii "id" then some .id
  else if key = ascii "result" then some .result
  else if foldName key = ascii "JSONRPC" then some .jsonrpc
  else if foldName key = ascii "ID" then some .id
  else if foldName key = ascii "RESULT" then some .result
  else none

/-! ## Numbers -/

/-- Value of a run of decimal digits. -/
def digitsVal (ds : List Byte) : Nat := ds.foldl (fun a c => 10 * a + (c - 0x30)) 0

/-- Result of `strconv.ParseInt(lit, 10, 64)` on a JSON number literal: the
literal must be an optional minus sign and digits, and fit 64 bits. -/
def parseInt64 (lit : List Byte) : Option Int :=
  let neg := lit.head? == some 0x2D
  let ds := if neg then lit.tail else lit
  if ds ≠ [] ∧ ds.all isDigit then
    let n : Int := if neg then -(digitsVal ds : Int) else (digitsVal ds : Int)
    if -(2 : Int) ^ 63 ≤ n ∧ n < (2 : Int) ^ 63 then some n else none
  else none

/-- A JSON number literal read as `mant * 10 ^ exp` (sign dropped). -/
structure Decimal where
  mant : Nat
  exp : Int

/-- Split a JSON number literal into digits and decimal exponent. -/
def readDecimal (lit : List Byte) : Decimal :=
  let unsigned := if lit.head? == some 0x2D then lit.tail else lit
  let intPart := unsigned.takeWhile isDigit
  let afterInt := unsigned.dropWhile isDigit
  let hasFrac := afterInt.head? == some 0x2E
  let fracPart := if hasFrac then afterInt.tail.takeWhile isDigit else []
  let afterFrac := if hasFrac then afterInt.tail.dropWhile isDigit else afterInt
  let expPart := afterFrac.tail
  let expNeg := expPart.head? == some 0x2D
  let expDigits :=
    if expPart.head? == some 0x2D || expPart.head? == some 0x2B then expPart.tail else expPart
  let e : Int := digitsVal expDigits
  { mant := digitsVal (intPart ++ fracPart),
    exp := (if expNeg then -e else e) - (fracPart.length : Int) }

/-- The least magnitude that rounds to infinity as a float64: `2^1024 - 2^970`,
halfway between the largest float64 and `2^1024`. -/
def float64Overflow : Nat :=
  179769313486231580793728971405303415079934132710037826936173778980444968292764750946649017977587207096330286416692887910946555547851940402630657488671505820681908902000708383676273854845817711531764475730270069855571366959622842914819860834936475292719074168444365510704342711559699508093042880177904174497792

/-- Whether `strconv.ParseFloat(lit, 64)` fails with a range error: the value
rounds to infinity, that is, its magnitude reaches `float64Overflow`. -/
def floatOverflows (lit : List Byte) : Bool :=
  let d := readDecimal lit
  decide (float64Overflow * 10 ^ (-d.exp).toNat ≤ d.mant * 10 ^ d.exp.toNat)

/-! ## Decoding a value -/

/-- What a Go `interface{}` holds after `encoding/json` has decoded into it:
`nil`, `bool`, `float64`, `string`, `[]interface{}` or
`map[string]interface{}`.  A `float64` is represented by the literal it was
parsed from; the program looks only at the dynamic type. -/
inductive GoValue where
  | nil
  | bool (b : Bool)
  | float64 (lit : List Byte)
  | string (s : List Byte)
  | slice (elems : List GoValue)
  | map (entries : List (List Byte × GoValue))

/-- The `json.UnmarshalTypeError` of a value that does not fit its target:
the kind of JSON value and the Go type it was meant for. -/
structure UnmarshalTypeError where
  value : String
  goType : String
deriving DecidableEq, Repr

/-- Keep the first error of a decoding run (`decodeState.saveError`): an error
is saved only when none has been saved before. -/
def saveError (saved : Option UnmarshalTypeError) (err : Option UnmarshalTypeError) :
    Option UnmarshalTypeError :=
  match saved with
  | none => err
  | some first => some first

/-- Assignment `m[key] = v` on a map kept as a list of entries. -/
def mapSet (m : List (List Byte × GoValue)) (key : List Byte) (v : GoValue) :
    List (List Byte × GoValue) :=
  match m with
  | [] => [(key, v)]
  | (k, old) :: rest => if k = key then (k, v) :: rest else (k, old) :: mapSet rest key v

mutual

/-- Decode a value into an empty interface (`valueInterface`): the Go value,
and the first error met inside the value.  The only error is a number that
does not fit a float64; it leaves `nil` in its place. -/
def valueInterface : JValue → GoValue × Option UnmarshalTypeError
  | .null => (.nil, none)
  | .bool b => (.bool b, none)
  | .string raw => (.string (unquote raw), none)
  | .number lit =>
    if floatOverflows lit then (.nil, some ⟨"number", "float64"⟩) else (.float64 lit, none)
  | .array elems =>
    let r := arrayInterface elems
    (.slice r.1, r.2)
  | .object members =>
    let r := objectInterface members []
    (.map r.1, r.2)

/-- Decode the elements of an array (`arrayInterface`). -/
def arrayInterface : List JValue → List GoValue × Option UnmarshalTypeError
  | [] => ([], none)
  | x :: xs =>
    let r := valueInterface x
    let rs := arrayInterface xs
    (r.1 :: rs.1, saveError r.2 rs.2)

/-- Decode the members of an object into a map, in order, a later member
replacing an earlier one of the same key (`objectInterface`). -/
def objectInterface :
    List (List Byte × JValue) → List (List Byte × GoValue) →
      List (List Byte × GoValue) × Option UnmarshalTypeError
  | [], m => (m, none)
  | (key, x) :: rest, m =>
    let r := valueInterface x
    let rs := objectInterface rest (mapSet m (unquote key) r.1)
    (rs.1, saveError r.2 rs.2)

end

/-! ## Decoding into `EthSyncingResponse` -/

/-- The JSON-RPC response for `eth_syncing` (`EthSyncingResponse`).  `Result` is
an `interface{}`. -/
structure EthSyncingResponse where
  JSONRPC : List Byte
  ID : Int
  Result : GoValue

/-- The zero value that `var ethSyncingResp EthSyncingResponse` declares. -/
def EthSyncingResponse.zero : EthSyncingResponse := { JSONRPC := [], ID := 0, Result := .nil }

/-- State of one `Unmarshal` run: the struct being filled and the saved error. -/
structure DecodeState where
  target : EthSyncingResponse
  savedError : Option UnmarshalTypeError

/-- How `UnmarshalTypeError.Value` names a kind of JSON value. -/
def JValue.kind : JValue → String
  | .null => "null"
  | .bool _ => "bool"
  | .number _ => "number"
  | .string _ => "string"
  | .array _ => "array"
  | .object _ => "object"

/-- Record a type error (`d.saveError(&UnmarshalTypeError{...})`). -/
def DecodeState.fail (d : DecodeState) (value goType : String) : DecodeState :=
  { d with savedError := saveError d.savedError (some ⟨value, goType⟩) }

/-- Decode a value into the `string` field `JSONRPC`: a string is stored,
`null` changes nothing, anything else is a type error. -/
def storeJSONRPC (x : JValue) (d : DecodeState) : DecodeState :=
  match x with
  | .null => d
  | .string raw => { d with target := { d.target with JSONRPC := unquote raw } }
  | other => d.fail other.kind "string"

/-- Decode a value into the `int` field `ID` (64 bits): a number is stored
when `ParseInt` accepts its literal, `null` changes nothing, anything else is a
type error. -/
def storeID (x : JValue) (d : DecodeState) : DecodeState :=
  match x with
  | .null => d
  | .number lit =>
    match parseInt64 lit with
    | some n => { d with target := { d.target with ID := n } }
    | none => d.fail "number" "int"
  | other => d.fail other.kind "int"

/-- Decode a value into the `interface{}` field `Result`: every value is
stored in its generic Go form; a number that does not fit a float64 is a type
error and leaves the field as it was. -/
def storeResult (x : JValue) (d : DecodeState) : DecodeState :=
  match x with
  | .number lit =>
    if floatOverflows lit then d.fail "number" "float64"
    else { d with target := { d.target with Result := .float64 lit } }
  | other =>
    let r := valueInterface other
    { target := { d.target with Result := r.1 }, savedError := saveError d.savedError r.2 }

/-- Decode one member of the top-level object: the key picks the field, a key
that matches no field is skipped with its value. -/
def decodeMember (d : DecodeState) (m : List Byte × JValue) : DecodeState :=
  match fieldFor (unquote m.1) with
  | some .jsonrpc => storeJSONRPC m.2 d
  | some .id => storeID m.2 d
  | some .result => storeResult m.2 d
  | none => d

/-- Decode the top-level value into the struct (`decodeState.value` on a
pointer to `EthSyncingResponse`): an object is decoded member by member,
`null` changes nothing, every other value is a type error. -/
def decodeValue (v : JValue) (d : DecodeState) : DecodeState :=
  match v with
  | .object members => members.foldl decodeMember d
  | .null => d
  | other => d.fail other.kind "main.EthSyncingResponse"

/-- The call `json.NewDecoder(resp.Body).Decode(&ethSyncingResp)` on a body
and the way its stream ends: read the first value, decode it, and report the
saved error if there is one. -/
def decode (body : List Byte) (bodyErr : Option TransportError) :
    Except DecodeError EthSyncingResponse :=
  match readValue body bodyErr with
  | .error e => .error e
  | .ok (v, _) =>
    let d := decodeValue v { target := EthSyncingResponse.zero, savedError := none }
    match d.savedError with
    | some e => .error (.unmarshalType e.value e.goType)
    | none => .ok d.target

/-! ## The outbound request -/

/-- The JSON-RPC request payload for `eth_syncing` (`EthSyncingRequest`).
`Params` is a slice: `none` is the nil slice, `some []` the empty one. -/
structure EthSyncingRequest where
  JSONRPC : String
  Method : String
  Params : Option (List String)
  ID : Int

/-- Lower-case hexadecimal digit. -/
def hexDigit (n : Nat) : Char :=
  if n < 10 then Char.ofNat (0x30 + n) else Char.ofNat (0x61 + (n - 10))

/-- How `json.Marshal` writes one character of a string (HTML escaping on). -/
def escapeChar (c : Char) : String :=
  let n := c.toNat
  if n == 0x22 || n == 0x5C then String.mk [Char.ofNat 0x5C, c]
  else if n == 0x08 then "\\b"
  else if n == 0x0C then "\\f"
  else if n == 0x0A then "\\n"
  else if n == 0x0D then "\\r"
  else if n == 0x09 then "\\t"
  else if n < 0x20 || n == 0x3C || n == 0x3E || n == 0x26 then
    "\\u00" ++ String.mk [hexDigit (n / 16), hexDigit (n % 16)]
  else if n == 0x2028 || n == 0x2029 then "\\u202" ++ String.mk [hexDigit (n % 16)]
  else String.singleton c

/-- A Go string as a JSON string literal (`appendString`). -/
def quoteString (s : String) : String :=
  "\"" ++ String.join (s.toList.map escapeChar) ++ "\""

/-- A `[]string` as JSON: `null` for the nil slice, else an array. -/
def marshalStrings : Option (List String) → String
  | none => "null"
  | some xs => "[" ++ ",".intercalate (xs.map quoteString) ++ "]"

/-- The call `json.Marshal` on an `EthSyncingRequest`: the fields in
declaration order under their tags.  It has no failing case for this type. -/
def jsonMarshal (r : EthSyncingRequest) : Except String String :=
  .ok ("\x7b\"jsonrpc\":" ++ quoteString r.JSONRPC ++ ",\"method\":" ++ quoteString r.Method
    ++ ",\"params\":" ++ marshalStrings r.Params ++ ",\"id\":" ++ toString r.ID ++ "\x7d")

/-- An outbound HTTP request (`http.Request`): method, URL, header, body. -/
structure Request where
  method : String
  url : String
  header : List (String × String)
  body : String
deriving DecidableEq, Repr

/-- What the program has of an upstream reply (`http.Response`): the status
code, which it never looks at, and `resp.Body` as a stream, the bytes it
delivers and how it ends after them (`none` for `io.EOF`, `some e` for a read
that fails, as when the timeout strikes in the middle of the body). -/
structure Response where
  statusCode : Nat
  body : List Byte
  bodyErr : Option TransportError
deriving DecidableEq, Repr

/-- The network as the program meets it.  `urlParse` is `url.Parse` inside
`http.NewRequest`: `some msg` when the URL is rejected.  `clientDo` is what
`client.Do` returns, with the 5 second timeout: given the calls of `client.Do`
made before and the request, the final reply or a transport error.  `sent` is
what `net/http` puts on the wire while it carries out that call: the HTTP
requests it sends, in order.  The program does not decide their number: there
is none when the transport refuses the request (a URL without a scheme it
serves), and one more for every redirect the client follows, since the program
sets no `CheckRedirect`. -/
structure Net where
  urlParse : String → Option String
  clientDo : List Request → Request → Except TransportError Response
  sent : List Request → Request → List Request

/-- The error value `isNodeSyncing` returns, by the step that failed. -/
inductive ProbeError where
  | marshal (msg : String)
  | newRequest (msg : String)
  | transport (e : TransportError)
  | decode (e : DecodeError)
deriving DecidableEq, Repr

/-- Assignment `h.Set(key, value)` on a header. -/
def headerSet (h : List (String × String)) (key value : String) : List (String × String) :=
  h.filter (fun kv => kv.1 != key) ++ [(key, value)]

/-- The call `http.NewRequest(method, url, body)`: fails when `url.Parse`
rejects the URL, else gives a request with an empty header.  (Its check of the
method always passes here: the method is the constant `POST`.) -/
def newRequest (net : Net) (method url body : String) : Except ProbeError Request :=
  match net.urlParse url with
  | some msg => .error (.newRequest msg)
  | none => .ok { method := method, url := url, header := [], body := body }

/-! ## The program -/

/-- Everything the program does to the outside, in order: the requests it
handed to `client.Do`, the HTTP requests `net/http` sent for them, the errors
logged by the handler, and a count of the invocations of `isNodeSyncing`. -/
structure World where
  calls : List Request
  sent : List Request
  probes : Nat
  logs : List ProbeError
deriving DecidableEq, Repr

/-- The world at startup. -/
def World.init : World := { calls := [], sent := [], probes := 0, logs := [] }

/-- Code of the program as the sequence of its calls that reach outside it:
entering `isNodeSyncing`, `http.NewRequest`, `client.Do`, `log.Println`.  Each
call hands its result to the code that follows.  A program has no other way to
the network or to the world than these calls. -/
inductive Program (α : Type) where
  | done (a : α)
  | enterIsNodeSyncing (next : Program α)
  | httpNewRequest (method url body : String) (next : Except ProbeError Request → Program α)
  | clientDo (req : Request) (next : Except TransportError Response → Program α)
  | logPrintln (err : ProbeError) (next : Program α)

/-- Run `first`, then the code that follows with its result. -/
def Program.andThen {α β : Type} : Program α → (α → Program β) → Program β
  | .done a, rest => rest a
  | .enterIsNodeSyncing next, rest => .enterIsNodeSyncing (next.andThen rest)
  | .httpNewRequest method url body next, rest =>
    .httpNewRequest method url body (fun r => (next r).andThen rest)
  | .clientDo req next, rest => .clientDo req (fun r => (next r).andThen rest)
  | .logPrintln err next, rest => .logPrintln err (next.andThen rest)

/-- Execution of a program against a network, from a world.  The world is
written here and nowhere else: every `client.Do` is recorded in `calls` with
the traffic `net/http` makes for it in `sent`, every entry into `isNodeSyncing`
is counted, every logged error is kept. -/
def Program.run {α : Type} (net : Net) : Program α → World → α × World
  | .done a, w => (a, w)
  | .enterIsNodeSyncing next, w => next.run net { w with probes := w.probes + 1 }
  | .httpNewRequest method url body next, w =>
    (next (newRequest net method url body)).run net w
  | .clientDo req next, w =>
    (next (net.clientDo w.calls req)).run net
      { w with calls := w.calls ++ [req], sent := w.sent ++ net.sent w.calls req }
  | .logPrintln err next, w => next.run net { w with logs := w.logs ++ [err] }

/-- The function `isNodeSyncing`: call `eth_syncing` on the node and return
whether it is syncing, or the error of the step that failed. -/
def Program.isNodeSyncing (ethNodeURL : String) : Program (Except ProbeError Bool) :=
  .enterIsNodeSyncing <|
  match jsonMarshal { JSONRPC := "2.0", Method := "eth_syncing", Params := some [], ID := 1 } with
  | .error msg => .done (.error (.marshal msg))
  | .ok requestBody =>
    .httpNewRequest "POST" ethNodeURL requestBody fun
      | .error err => .done (.error err)
      | .ok req0 =>
        let req := { req0 with header := headerSet req0.header "Content-Type" "application/json" }
        .clientDo req fun
          | .error err => .done (.error (.transport err))
          | .ok resp =>
            match decode resp.body resp.bodyErr with
            | .error err => .done (.error (.decode err))
            | .ok ethSyncingResp =>
              match ethSyncingResp.Result with
              | .bool v => .done (.ok v)
              | .map _ => .done (.ok true)
              | _ => .done (.ok false)

/-- One invocation of `isNodeSyncing` against a network: its result and the
world after it. -/
def isNodeSyncing (net : Net) (ethNodeURL : String) (w : World) : Except ProbeError Bool × World :=
  (Program.isNodeSyncing ethNodeURL).run net w

/-- An `http.ResponseWriter`: the status once `WriteHeader` has fixed it, the
header, and the body written so far. -/
structure ResponseWriter where
  status : Option Nat
  header : List (String × String)
  body : String
deriving DecidableEq, Repr

/-- The writer a handler is given. -/
def ResponseWriter.fresh : ResponseWriter := { status := none, header := [], body := "" }

/-- The call `w.WriteHeader(code)`; only the first call counts. -/
def ResponseWriter.WriteHeader (rw : ResponseWriter) (code : Nat) : ResponseWriter :=
  match rw.status with
  | some _ => rw
  | none => { rw with status := some code }

/-- The call `w.Write(b)`; it sends status 200 first if none was sent. -/
def ResponseWriter.Write (rw : ResponseWriter) (b : String) : ResponseWriter :=
  let rw1 := rw.WriteHeader 200
  { rw1 with body := rw1.body ++ b }

/-- The call `http.Error(w, error, code)`: a plain-text reply whose body is the
message and a newline (`fmt.Fprintln`). -/
def httpError (rw : ResponseWriter) (error : String) (code : Nat) : ResponseWriter :=
  let h := headerSet (headerSet rw.header "Content-Type" "text/plain; charset=utf-8")
    "X-Content-Type-Options" "nosniff"
  ({ rw with header := h }.WriteHeader code).Write (error ++ "\n")

/-- The handler registered on `/health`, given a fresh writer: what it has
written when it returns. -/
def Program.healthHandler (ethNodeURL : String) : Program ResponseWriter :=
  let rw := ResponseWriter.fresh
  (Program.isNodeSyncing ethNodeURL).andThen fun
    | .error err =>
      .logPrintln err (.done (httpError rw "Error checking sync status" 500))
    | .ok syncing =>
      if syncing then .done ((rw.WriteHeader 206).Write "Node is still syncing")
      else .done ((rw.WriteHeader 200).Write "Node is fully synced")

/-- One `/health` request against a network: the answer written and the world
after it. -/
def healthHandler (net : Net) (ethNodeURL : String) (w : World) : ResponseWriter × World :=
  (Program.healthHandler ethNodeURL).run net w

/-- The call `os.Getenv(key)`: the empty string for a variable that is not set. -/
def getenv (environ : String → Option String) (key : String) : String :=
  (environ key).getD ""

/-- The upstream URL `main` settles on at startup. -/
def ethNodeURL (environ : String → Option String) : String :=
  let url := getenv environ "ETH_NODE_URL"
  if url == "" then "http://localhost:8545" else url

/-- The server `main` starts, as far as `/health` goes: every request runs the
handler with the URL chosen at startup. -/
def serveHealth (environ : String → Option String) (net : Net) (w : World) :
    ResponseWriter × World :=
  healthHandler net (ethNodeURL environ) w

/-! ## A concrete network for examples -/

/-- The first two checks of `url.Parse`, made on the URL without its fragment:
a URL with an ASCII control character is rejected, and so is one that starts
with a colon.  The later checks (escapes, host, port) are not modelled; this
function is used only on URLs that it settles the way Go does. -/
def urlParseChecks (rawURL : String) : Option String :=
  let u := (rawURL.toList.map Char.toNat).takeWhile (fun c => c != 0x23)
  if u.any (fun c => c < 0x20 || c == 0x7F) then
    some "net/url: invalid control character in URL"
  else if u.head? == some 0x3A then
    some "missing protocol scheme"
  else none

/-- A network whose upstream gives the same reply to every call, in one plain
exchange: the request is sent once. -/
def Net.replying (reply : Except TransportError Response) : Net :=
  { urlParse := urlParseChecks, clientDo := fun _ _ => reply, sent := fun _ req => [req] }

/-- A network whose upstream answers every call with the given status and
body, delivered in full. -/
def Net.answering (statusCode : Nat) (body : List Byte) : Net :=
  Net.replying (.ok { statusCode := statusCode, body := body, bodyErr := none })

/-- The default upstream URL. -/
def localURL : String := "http://localhost:8545"

/-- A network whose upstream gives one reply to the first call and another
reply to every later call, each in one plain exchange. -/
def Net.switching (first later : Except TransportError Response) : Net :=
  { urlParse := urlParseChecks,
    clientDo := fun earlier _ => if earlier.isEmpty then first else later,
    sent := fun _ req => [req] }

/-- A network whose upstream answers the request with `307 Temporary Redirect`
to `location` and gives `reply` there.  The client follows the redirect: it
sends the request a second time, same method and body, to the new URL, with a
`Referer` header, and returns the second reply. -/
def Net.redirecting (location : String) (reply : Response) : Net :=
  { urlParse := urlParseChecks,
    clientDo := fun _ _ => .ok reply,
    sent := fun _ req =>
      [req, { req with url := location, header := headerSet req.header "Referer" req.url }] }

/-- The network as it is for a URL whose scheme the transport does not serve,
such as `localhost:8545` (scheme `localhost`): `client.Do` fails with
`unsupported protocol scheme` and nothing is sent. -/
def Net.unsupportedScheme : Net :=
  { urlParse := urlParseChecks,
    clientDo := fun _ _ => .error (.other "unsupported protocol scheme"),
    sent := fun _ _ => [] }

/-! ## Vocabulary of the specification -/

/-- The outbound request as the specification words it: a POST to the URL with
content type `application/json` and the fixed JSON-RPC body. -/
def probeRequest (url : String) : Request :=
  { method := "POST",
    url := url,
    header := [("Content-Type", "application/json")],
    body := "\x7b\"jsonrpc\":\"2.0\",\"method\":\"eth_syncing\",\"params\":[],\"id\":1\x7d" }

/-- A body that is JSON: one value, with nothing but spaces after it. -/
def isJSONText (body : List Byte) : Bool :=
  match readValue body none with
  | .ok (_, rest) => rest.all isSpace
  | .error _ => false

/-- The member of a top-level object whose value ends up in `Result`: the last
member whose key is bound to that field. -/
def resultMember : List (List Byte × JValue) → Option JValue
  | [] => none
  | m :: rest =>
    match resultMember rest with
    | some x => some x
    | none => if fieldFor (unquote m.1) = some .result then some m.2 else none

/-- A member of the top-level object that does not fit the field it is bound
to: a `jsonrpc` that is neither a string nor `null`, or an `id` that is neither
`null` nor an integer literal of 64 bits. -/
def memberMisfit (m : List Byte × JValue) : Bool :=
  match fieldFor (unquote m.1), m.2 with
  | some .jsonrpc, .null => false
  | some .jsonrpc, .string _ => false
  | some .jsonrpc, _ => true
  | some .id, .null => false
  | some .id, .number lit => (parseInt64 lit).isNone
  | some .id, _ => true
  | _, _ => false

/-- A value that does not fit the inbound record: a top-level array, string,
number or boolean, or an object with a member that does not fit its field. -/
def misfits : JValue → Bool
  | .object members => members.any memberMisfit
  | .null => false
  | _ => true

/-! ## Example replies -/

/-- Reply of a node that is fully synced. -/
def syncedBody : List Byte :=
  ascii "\x7b\"jsonrpc\":\"2.0\",\"id\":1,\"result\":false\x7d"

/-- Reply of a node that is syncing: `result` is a progress object. -/
def syncingBody : List Byte :=
  ascii ("\x7b\"jsonrpc\":\"2.0\",\"id\":1,\"result\":\x7b\"startingBlock\":\"0x0\","
    ++ "\"currentBlock\":\"0x5\",\"highestBlock\":\"0xa\"\x7d\x7d")

/-- A reply whose `result` is the empty object. -/
def emptyObjectBody : List Byte := ascii "\x7b\"result\":\x7b\x7d\x7d"

/-- A body that breaks off in the middle of the reply. -/
def cutBody : List Byte := ascii "\x7b\"jsonrpc\":"

/-- A JSON-RPC error reply: there is no `result` member. -/
def rpcErrorBody : List Byte :=
  ascii ("\x7b\"jsonrpc\":\"2.0\",\"id\":1,\"error\":\x7b\"code\":-32601,"
    ++ "\"message\":\"method not found\"\x7d\x7d")

/-- A reply with another protocol version and another id than the request. -/
def foreignIdBody : List Byte :=
  ascii "\x7b\"jsonrpc\":\"1.0\",\"id\":7,\"result\":false\x7d"

/-- A reply whose `id` is a string. -/
def stringIdBody : List Byte :=
  ascii "\x7b\"jsonrpc\":\"2.0\",\"id\":\"1\",\"result\":false\x7d"

/-- An error page of a proxy in front of the node: not JSON at all. -/
def htmlBody : List Byte := ascii "<html>502 Bad Gateway</html>"

/-- The reply of a synced node followed by a stray closing brace. -/
def trailingBody : List Byte := syncedBody ++ ascii "\x7d"

/-- The default URL followed by a line feed, as a sloppy environment file gives it. -/
def newlineURL : String := "http://localhost:8545\n"

/-- An upstream that is synced at the first call and syncing at every later one. -/
def syncedThenSyncing : Net :=
  Net.switching (.ok ⟨200, syncedBody, none⟩) (.ok ⟨200, syncingBody, none⟩)

/-- The world after one `/health` request against `syncedThenSyncing`. -/
def afterFirstRequest : World :=
  (healthHandler syncedThenSyncing localURL World.init).2

/-- An environment in which only `ETH_NODE_URL` is set. -/
def environWith (value : String) : String → Option String :=
  fun key => if key == "ETH_NODE_URL" then some value else none

/-! ## Lemmas on the prober and the handler -/

/-- The request body the prober marshals is the fixed JSON-RPC text. -/
theorem jsonMarshal_probe :
    jsonMarshal { JSONRPC := "2.0", Method := "eth_syncing", Params := some [], ID := 1 }
      = .ok (probeRequest "").body := rfl

/-- Running two pieces of code in sequence: the second starts from the result
and the world the first has left. -/
theorem run_andThen {α β : Type} (net : Net) (first : Program α) (rest : α → Program β)
    (w : World) :
    (first.andThen rest).run net w
      = (rest (first.run net w).1).run net (first.run net w).2 := by
  induction first generalizing w with
  | done a => rfl
  | enterIsNodeSyncing next ih => exact ih _
  | httpNewRequest method url body next ih => exact ih _ _
  | clientDo req next ih => exact ih _ _
  | logPrintln err next ih => exact ih _

/-- A URL that `url.Parse` rejects ends the probe before any call is made. -/
theorem isNodeSyncing_rejected (net : Net) (url : String) (w : World) (msg : String)
    (h : net.urlParse url = some msg) :
    isNodeSyncing net url w = (.error (.newRequest msg), { w with probes := w.probes + 1 }) := by
  unfold isNodeSyncing Program.isNodeSyncing
  rw [jsonMarshal_probe]
  simp only [Program.run, newRequest, h]

/-- With an accepted URL the prober makes one call with `probeRequest` and its
result is read off the reply. -/
theorem isNodeSyncing_accepted (net : Net) (url : String) (w : World)
    (h : net.urlParse url = none) :
    isNodeSyncing net url w =
      ((match net.clientDo w.calls (probeRequest url) with
        | .error err => .error (.transport err)
        | .ok resp =>
          match decode resp.body resp.bodyErr with
          | .error err => .error (.decode err)
          | .ok r =>
            match r.Result with
            | .bool v => .ok v
            | .map _ => .ok true
            | _ => .ok false),
       { w with
         probes := w.probes + 1,
         calls := w.calls ++ [probeRequest url],
         sent := w.sent ++ net.sent w.calls (probeRequest url) }) := by
  unfold isNodeSyncing Program.isNodeSyncing
  rw [jsonMarshal_probe]
  simp only [Program.run, newRequest, h]
  have hreq : Request.mk "POST" url (headerSet [] "Content-Type" "application/json")
      (probeRequest "").body = probeRequest url := rfl
  simp only [hreq]
  cases net.clientDo w.calls (probeRequest url) with
  | error e => rfl
  | ok resp =>
    simp only
    cases decode resp.body resp.bodyErr with
    | error e => rfl
    | ok r =>
      simp only
      cases r.Result <;> rfl

/-- The prober's result on a reply whose body decodes. -/
theorem isNodeSyncing_decoded (net : Net) (url : String) (w : World) (reply : Response)
    (resp : EthSyncingResponse) (hurl : net.urlParse url = none)
    (hdo : net.clientDo w.calls (probeRequest url) = .ok reply)
    (hdec : decode reply.body reply.bodyErr = .ok resp) :
    (isNodeSyncing net url w).1 =
      (match resp.Result with
        | .bool v => .ok v
        | .map _ => .ok true
        | _ => .ok false) := by
  rw [isNodeSyncing_accepted net url w hurl]
  simp only [hdo, hdec]

/-- The prober's result on a reply whose body does not decode. -/
theorem isNodeSyncing_undecoded (net : Net) (url : String) (w : World) (reply : Response)
    (e : DecodeError) (hurl : net.urlParse url = none)
    (hdo : net.clientDo w.calls (probeRequest url) = .ok reply)
    (hdec : decode reply.body reply.bodyErr = .error e) :
    (isNodeSyncing net url w).1 = .error (.decode e) := by
  rw [isNodeSyncing_accepted net url w hurl]
  simp only [hdo, hdec]

/-- The world after a probe: one more invocation, and, exactly when the URL
was accepted, one more call of `client.Do` with the traffic of that call. -/
theorem isNodeSyncing_world (net : Net) (url : String) (w : World) :
    (isNodeSyncing net url w).2 =
      { w with
        probes := w.probes + 1,
        calls := w.calls ++ (match net.urlParse url with
          | none => [probeRequest url]
          | some _ => []),
        sent := w.sent ++ (match net.urlParse url with
          | none => net.sent w.calls (probeRequest url)
          | some _ => []) } := by
  cases h : net.urlParse url with
  | none => rw [isNodeSyncing_accepted net url w h]
  | some msg => rw [isNodeSyncing_rejected net url w msg h]; simp

/-- The handler runs the prober once and then only writes its answer and its
log. -/
theorem healthHandler_eq (net : Net) (url : String) (w : World) :
    healthHandler net url w =
      (match (isNodeSyncing net url w).1 with
        | .error err =>
          (httpError ResponseWriter.fresh "Error checking sync status" 500,
            { (isNodeSyncing net url w).2 with
              logs := (isNodeSyncing net url w).2.logs ++ [err] })
        | .ok syncing =>
          (if syncing then (ResponseWriter.fresh.WriteHeader 206).Write "Node is still syncing"
            else (ResponseWriter.fresh.WriteHeader 200).Write "Node is fully synced",
            (isNodeSyncing net url w).2)) := by
  unfold healthHandler Program.healthHandler
  rw [run_andThen]
  have e : (Program.isNodeSyncing url).run net w = isNodeSyncing net url w := rfl
  rw [e]
  rcases isNodeSyncing net url w with ⟨res, w1⟩
  cases res with
  | error e => rfl
  | ok b => cases b <;> rfl

/-- The handler's reply after a successful probe. -/
theorem healthHandler_ok (net : Net) (url : String) (w : World) (b : Bool)
    (h : (isNodeSyncing net url w).1 = .ok b) :
    (healthHandler net url w).1 =
      { status := some (if b then 206 else 200),
        header := [],
        body := if b then "Node is still syncing" else "Node is fully synced" } := by
  rw [healthHandler_eq, h]
  cases b <;> rfl

/-- The handler's reply after a failed probe. -/
theorem healthHandler_error (net : Net) (url : String) (w : World) (e : ProbeError)
    (h : (isNodeSyncing net url w).1 = .error e) :
    (healthHandler net url w).1 =
      { status := some 500,
        header := [("Content-Type", "text/plain; charset=utf-8"),
          ("X-Content-Type-Options", "nosniff")],
        body := "Error checking sync status\n" } := by
  rw [healthHandler_eq, h]
  rfl

/-- The handler touches the world only through its one probe and its log. -/
theorem healthHandler_world (net : Net) (url : String) (w : World) :
    (healthHandler net url w).2.calls = (isNodeSyncing net url w).2.calls ∧
    (healthHandler net url w).2.sent = (isNodeSyncing net url w).2.sent ∧
    (healthHandler net url w).2.probes = (isNodeSyncing net url w).2.probes := by
  rw [healthHandler_eq]
  cases (isNodeSyncing net url w).1 with
  | error e => exact ⟨rfl, rfl, rfl⟩
  | ok b => exact ⟨rfl, rfl, rfl⟩

/-! ## Lemmas on decoding -/

/-- A saved error is never replaced. -/
theorem decodeMember_keeps_error (d : DecodeState) (m : List Byte × JValue)
    (e : UnmarshalTypeError) (h : d.savedError = some e) :
    (decodeMember d m).savedError = some e := by
  unfold decodeMember
  split
  · unfold storeJSONRPC
    split <;> simp [DecodeState.fail, saveError, h]
  · unfold storeID
    split
    · exact h
    · split <;> simp [DecodeState.fail, saveError, h]
    · simp [DecodeState.fail, saveError, h]
  · unfold storeResult
    split
    · split <;> simp [DecodeState.fail, saveError, h]
    · simp [saveError, h]
  · exact h

/-- A saved error survives the rest of the object. -/
theorem foldl_decodeMember_keeps_error (ms : List (List Byte × JValue)) (d : DecodeState)
    (e : UnmarshalTypeError) (h : d.savedError = some e) :
    (ms.foldl decodeMember d).savedError = some e := by
  induction ms generalizing d with
  | nil => exact h
  | cons m rest ih => exact ih (decodeMember d m) (decodeMember_keeps_error d m e h)

/-- A member that does not fit its field leaves an error behind. -/
theorem decodeMember_misfit (d : DecodeState) (m : List Byte × JValue)
    (h : memberMisfit m = true) : ∃ e, (decodeMember d m).savedError = some e := by
  cases hs : d.savedError with
  | some e => exact ⟨e, decodeMember_keeps_error d m e hs⟩
  | none =>
    unfold memberMisfit at h
    unfold decodeMember
    rcases m with ⟨key, x⟩
    cases hf : fieldFor (unquote key) with
    | none => simp [hf] at h
    | some fld =>
      cases fld with
      | result => simp [hf] at h
      | jsonrpc =>
        cases x <;> simp [hf] at h <;> simp [storeJSONRPC, DecodeState.fail, saveError, hs]
      | id =>
        cases x <;> simp [hf] at h <;>
          simp [storeID, DecodeState.fail, saveError, hs, h]

/-- An object with a member that does not fit fails to decode. -/
theorem foldl_decodeMember_misfit (ms : List (List Byte × JValue)) (d : DecodeState)
    (h : ms.any memberMisfit = true) : ∃ e, (ms.foldl decodeMember d).savedError = some e := by
  induction ms generalizing d with
  | nil => simp at h
  | cons m rest ih =>
    rw [List.any_cons, Bool.or_eq_true] at h
    rcases h with h | h
    · obtain ⟨e, he⟩ := decodeMember_misfit d m h
      exact ⟨e, foldl_decodeMember_keeps_error rest _ e he⟩
    · exact ih (decodeMember d m) h

/-- A value that does not fit the record leaves an error behind. -/
theorem decodeValue_misfit (v : JValue) (d : DecodeState) (h : misfits v = true) :
    ∃ e, (decodeValue v d).savedError = some e := by
  cases hs : d.savedError with
  | some e =>
    cases v with
    | object ms => exact ⟨e, foldl_decodeMember_keeps_error ms d e hs⟩
    | null => simp [misfits] at h
    | _ => simp [decodeValue, DecodeState.fail, saveError, hs]
  | none =>
    cases v with
    | object ms => exact foldl_decodeMember_misfit ms d h
    | null => simp [misfits] at h
    | _ => simp [decodeValue, DecodeState.fail, saveError, hs]

/-- A body whose first value does not fit the record does not decode. -/
theorem decode_misfit (body : List Byte) (bodyErr : Option TransportError) (v : JValue)
    (rest : List Byte) (hr : readValue body bodyErr = .ok (v, rest)) (hm : misfits v = true) :
    ∃ e, decode body bodyErr = .error e := by
  obtain ⟨e, he⟩ :=
    decodeValue_misfit v { target := EthSyncingResponse.zero, savedError := none } hm
  refine ⟨.unmarshalType e.value e.goType, ?_⟩
  simp only [decode, hr, he]

/-- A body without a readable first value does not decode. -/
theorem decode_unreadable (body : List Byte) (bodyErr : Option TransportError)
    (e : DecodeError) (hr : readValue body bodyErr = .error e) :
    decode body bodyErr = .error e := by
  simp only [decode, hr]

/-! ## Which member of the body becomes `Result` -/

/-- The overflow threshold is `2^1024 - 2^970`. -/
theorem float64Overflow_eq : float64Overflow = 2 ^ 1024 - 2 ^ 970 := by
  unfold float64Overflow; norm_num

/-- Decoding a member that is not bound to `Result` leaves `Result` alone. -/
theorem decodeMember_other_field (d : DecodeState) (m : List Byte × JValue)
    (h : fieldFor (unquote m.1) ≠ some .result) :
    (decodeMember d m).target.Result = d.target.Result := by
  unfold decodeMember
  split
  · unfold storeJSONRPC
    split <;> rfl
  · unfold storeID
    split
    · rfl
    · split <;> rfl
    · rfl
  · rename_i hf
    exact absurd hf h
  · rfl

/-- Decoding a member bound to `Result` without error stores its value there. -/
theorem decodeMember_result_field (d : DecodeState) (m : List Byte × JValue)
    (h : fieldFor (unquote m.1) = some .result) (hok : (decodeMember d m).savedError = none) :
    (decodeMember d m).target.Result = (valueInterface m.2).1 := by
  rcases m with ⟨key, x⟩
  simp only at h
  simp only [decodeMember, h] at hok ⊢
  cases x with
  | number lit =>
    simp only [storeResult] at hok ⊢
    by_cases hfl : floatOverflows lit = true
    · rw [if_pos hfl] at hok
      cases hd : d.savedError <;> simp [DecodeState.fail, saveError, hd] at hok
    · rw [if_neg hfl]
      simp only [valueInterface, if_neg hfl]
  | _ => rfl

/-- Unfolding of `resultMember` on a non-empty list. -/
theorem resultMember_cons (m : List Byte × JValue) (rest : List (List Byte × JValue)) :
    resultMember (m :: rest) =
      (match resultMember rest with
        | some x => some x
        | none => if fieldFor (unquote m.1) = some .result then some m.2 else none) := rfl

/-- After an object has been decoded without error, `Result` holds the value
of the last member bound to it, and is untouched when there is none. -/
theorem foldl_decodeMember_result (ms : List (List Byte × JValue)) (d : DecodeState)
    (h : (ms.foldl decodeMember d).savedError = none) :
    (ms.foldl decodeMember d).target.Result =
      (match resultMember ms with
        | none => d.target.Result
        | some x => (valueInterface x).1) := by
  induction ms generalizing d with
  | nil => rfl
  | cons m rest ih =>
    have hd : (decodeMember d m).savedError = none := by
      cases hs : (decodeMember d m).savedError with
      | none => rfl
      | some e =>
        rw [List.foldl_cons, foldl_decodeMember_keeps_error rest _ e hs] at h
        cases h
    rw [List.foldl_cons] at h ⊢
    rw [ih (decodeMember d m) h, resultMember_cons]
    cases hr : resultMember rest with
    | some x => rfl
    | none =>
      simp only
      by_cases hf : fieldFor (unquote m.1) = some .result
      · rw [if_pos hf]
        exact decodeMember_result_field d m hf hd
      · rw [if_neg hf]
        exact decodeMember_other_field d m hf

/-- The `Result` of a decoded body whose first value is an object: the generic
Go form of the last member bound to the field, `nil` when no member is. -/
theorem decode_result (body : List Byte) (bodyErr : Option TransportError)
    (ms : List (List Byte × JValue)) (rest : List Byte) (resp : EthSyncingResponse)
    (hr : readValue body bodyErr = .ok (.object ms, rest))
    (hd : decode body bodyErr = .ok resp) :
    resp.Result =
      (match resultMember ms with
        | none => .nil
        | some x => (valueInterface x).1) := by
  simp only [decode, hr, decodeValue] at hd
  split at hd
  · cases hd
  · rename_i hs
    cases hd
    exact foldl_decodeMember_result ms _ hs

/-- A decoded `Result` is a Go `bool` exactly when the member is a JSON boolean. -/
theorem valueInterface_bool (x : JValue) (b : Bool) :
    (valueInterface x).1 = .bool b ↔ x = .bool b := by
  cases x <;> simp [valueInterface]
  rename_i lit
  split <;> simp

/-- A decoded `Result` is a Go map exactly when the member is a JSON object. -/
theorem valueInterface_map (x : JValue) :
    (∃ entries, (valueInterface x).1 = .map entries) ↔ ∃ members, x = .object members := by
  cases x <;> simp [valueInterface]
  rename_i lit
  split <;> simp

/-- For a decoded body whose first value is an object, `Result` is the Go
`bool` `b` exactly when the last member bound to the field is the JSON boolean
`b`. -/
theorem decode_result_bool (body : List Byte) (bodyErr : Option TransportError)
    (ms : List (List Byte × JValue)) (rest : List Byte) (resp : EthSyncingResponse) (b : Bool)
    (hr : readValue body bodyErr = .ok (.object ms, rest))
    (hd : decode body bodyErr = .ok resp) :
    resp.Result = .bool b ↔ resultMember ms = some (.bool b) := by
  rw [decode_result body bodyErr ms rest resp hr hd]
  cases resultMember ms with
  | none => simp
  | some x => simp [valueInterface_bool]

/-- For a decoded body whose first value is an object, `Result` is a Go map
exactly when the last member bound to the field is a JSON object. -/
theorem decode_result_map (body : List Byte) (bodyErr : Option TransportError)
    (ms : List (List Byte × JValue)) (rest : List Byte) (resp : EthSyncingResponse)
    (hr : readValue body bodyErr = .ok (.object ms, rest))
    (hd : decode body bodyErr = .ok resp) :
    (∃ entries, resp.Result = .map entries) ↔
      ∃ members, resultMember ms = some (.object members) := by
  rw [decode_result body bodyErr ms rest resp hr hd]
  cases resultMember ms with
  | none => simp
  | some x => simpa using valueInterface_map x

/-! ## Bytes after the first value -/

/-- A scanner that reports a complete value other than a number on the
invented space has that value ready, and reports it on every byte. -/
theorem next_done_of_space (s : Scanner) (v : JValue) (hnum : ∀ lit, v ≠ .number lit)
    (h : s.next 0x20 = .done v) (c : Byte) : s.next c = .done v := by
  rcases s with ⟨step, stack⟩
  cases step <;>
    simp [Scanner.next, stateBeginValue, state0, stateESign, stateEndValue, isSpace, isDigit,
      isHex, pushParseState] at h ⊢
  all_goals
    cases stack with
    | nil =>
      simp only [Op.done.injEq] at h
      first
        | exact absurd h.symm (hnum _)
        | simp [h]
    | cons fr rest => simp at h

/-- Bytes after a first value that is not a number do not change what
`readValue` reads: they are handed back unread. -/
theorem readValueFrom_append (bodyErr : Option TransportError) (body : List Byte) (s : Scanner)
    (v : JValue) (rest : List Byte) (hnum : ∀ lit, v ≠ .number lit)
    (h : readValueFrom bodyErr s body = .ok (v, rest)) (extra : List Byte) :
    readValueFrom bodyErr s (body ++ extra) = .ok (v, rest ++ extra) := by
  induction body generalizing s with
  | nil =>
    cases extra with
    | nil => simpa using h
    | cons c cs =>
      simp only [readValueFrom] at h
      cases bodyErr with
      | some e => simp at h
      | none =>
        simp only at h
        cases hv : s.next 32 with
        | done v1 =>
          simp only [hv, Except.ok.injEq, Prod.mk.injEq] at h
          obtain ⟨rfl, rfl⟩ := h
          simp [readValueFrom, next_done_of_space s v1 hnum hv c]
        | _ => simp [hv] at h
  | cons c cs ih =>
    simp only [readValueFrom] at h
    simp only [List.cons_append, readValueFrom]
    cases hs : s.next c with
    | done v1 =>
      simp only [hs, Except.ok.injEq, Prod.mk.injEq] at h
      obtain ⟨rfl, rfl⟩ := h
      simp
    | endContainer s1 =>
      simp only [hs] at h
      cases hv : s1.next 32 with
      | done v1 =>
        simp only [hv, Except.ok.injEq, Prod.mk.injEq] at h
        obtain ⟨rfl, rfl⟩ := h
        simp [hv]
      | more s2 => simp only [hv] at h ⊢; exact ih s1 h
      | endContainer s2 => simp only [hv] at h ⊢; exact ih s1 h
      | error => simp only [hv] at h ⊢; exact ih s1 h
    | more s1 =>
      simp only [hs] at h
      exact ih s1 h
    | error => simp [hs] at h

/-- Bytes after a first value that is not a number do not change the outcome
of `decode`: the decoder never looks at them. -/
theorem decode_append (body : List Byte) (bodyErr : Option TransportError) (v : JValue)
    (rest : List Byte) (hnum : ∀ lit, v ≠ .number lit)
    (h : readValue body bodyErr = .ok (v, rest)) (extra : List Byte) :
    decode (body ++ extra) bodyErr = decode body bodyErr := by
  have h1 : readValueFrom bodyErr Scanner.reset body = .ok (v, rest) := by
    unfold readValue at h
    split at h
    · split at h <;> cases h
    · exact h
  have h2 := readValueFrom_append bodyErr body Scanner.reset v rest hnum h1 extra
  have h3 : readValue (body ++ extra) bodyErr = .ok (v, rest ++ extra) := by
    unfold readValue
    rw [h2]
  simp only [decode, h, h3]

/-! ## Examples of decoding -/

/-- Bodies whose `result` is `null`, a number, a string or an array, and the
body `null`, all decode; `Result` then holds `nil`, a `float64`, a `string`, a
slice, and `nil`. -/
theorem decode_other_shapes :
    decode (ascii "\x7b\"result\":null\x7d") none
      = .ok { JSONRPC := [], ID := 0, Result := .nil } ∧
    decode (ascii "\x7b\"result\":12\x7d") none
      = .ok { JSONRPC := [], ID := 0, Result := .float64 (ascii "12") } ∧
    decode (ascii "\x7b\"result\":\"0x1\"\x7d") none
      = .ok { JSONRPC := [], ID := 0, Result := .string (ascii "0x1") } ∧
    decode (ascii "\x7b\"result\":[true]\x7d") none
      = .ok { JSONRPC := [], ID := 0, Result := .slice [.bool true] } ∧
    decode (ascii "null") none = .ok EthSyncingResponse.zero :=
  ⟨rfl, rfl, rfl, rfl, rfl⟩

/-! ## The claims -/

/-- C1: when the reply body decodes and its `result` holds the JSON boolean
`b`, `isNodeSyncing` returns `b` without error, and `/health` answers 200 for
`false` and 206 for `true`. -/
theorem isNodeSyncing_bool_result (net : Net) (url : String) (w : World) (reply : Response)
    (resp : EthSyncingResponse) (b : Bool)
    (hurl : net.urlParse url = none)
    (hdo : net.clientDo w.calls (probeRequest url) = .ok reply)
    (hdec : decode reply.body reply.bodyErr = .ok resp)
    (hres : resp.Result = .bool b) :
    (isNodeSyncing net url w).1 = .ok b ∧
    (healthHandler net url w).1.status = some (if b then 206 else 200) := by
  have h : (isNodeSyncing net url w).1 = .ok b := by
    rw [isNodeSyncing_decoded net url w reply resp hurl hdo hdec, hres]
  exact ⟨h, by rw [healthHandler_ok net url w b h]⟩

/-- C1 at the reply of a synced node, sent with status 200. -/
theorem isNodeSyncing_bool_result_witness :
    decode syncedBody none = .ok { JSONRPC := ascii "2.0", ID := 1, Result := .bool false } ∧
    (isNodeSyncing (Net.answering 200 syncedBody) localURL World.init).1
      = .ok false ∧
    (healthHandler (Net.answering 200 syncedBody) localURL
      World.init).1.status = some 200 :=
  ⟨rfl, isNodeSyncing_bool_result (Net.answering 200 syncedBody) localURL
    World.init ⟨200, syncedBody, none⟩
    { JSONRPC := ascii "2.0", ID := 1, Result := .bool false } false rfl rfl rfl rfl⟩

/-- C2: when the reply body decodes and its `result` holds a JSON object,
whatever its members, `isNodeSyncing` returns `true` without error and
`/health` answers 206. -/
theorem isNodeSyncing_object_result (net : Net) (url : String) (w : World) (reply : Response)
    (resp : EthSyncingResponse) (entries : List (List Byte × GoValue))
    (hurl : net.urlParse url = none)
    (hdo : net.clientDo w.calls (probeRequest url) = .ok reply)
    (hdec : decode reply.body reply.bodyErr = .ok resp)
    (hres : resp.Result = .map entries) :
    (isNodeSyncing net url w).1 = .ok true ∧
    (healthHandler net url w).1.status = some 206 := by
  have h : (isNodeSyncing net url w).1 = .ok true := by
    rw [isNodeSyncing_decoded net url w reply resp hurl hdo hdec, hres]
  exact ⟨h, by rw [healthHandler_ok net url w true h]; rfl⟩

/-- C2 at the empty object. -/
theorem isNodeSyncing_object_result_witness :
    decode emptyObjectBody none
      = .ok { JSONRPC := [], ID := 0, Result := .map [] } ∧
    (isNodeSyncing (Net.answering 200 emptyObjectBody)
      localURL World.init).1 = .ok true ∧
    (healthHandler (Net.answering 200 emptyObjectBody)
      localURL World.init).1.status = some 206 :=
  ⟨rfl, isNodeSyncing_object_result
    (Net.answering 200 emptyObjectBody) localURL
    World.init ⟨200, emptyObjectBody, none⟩
    { JSONRPC := [], ID := 0, Result := .map [] } [] rfl rfl rfl rfl⟩

/-- C3: when the reply body decodes and its `result` holds neither a boolean
nor an object (it is `null`, a number, a string, an array, or there is no such
member), `isNodeSyncing` returns `false` without error and `/health` answers
200. -/
theorem isNodeSyncing_other_result (net : Net) (url : String) (w : World) (reply : Response)
    (resp : EthSyncingResponse)
    (hurl : net.urlParse url = none)
    (hdo : net.clientDo w.calls (probeRequest url) = .ok reply)
    (hdec : decode reply.body reply.bodyErr = .ok resp)
    (hbool : ∀ b, resp.Result ≠ .bool b)
    (hmap : ∀ entries, resp.Result ≠ .map entries) :
    (isNodeSyncing net url w).1 = .ok false ∧
    (healthHandler net url w).1.status = some 200 := by
  have h : (isNodeSyncing net url w).1 = .ok false := by
    rw [isNodeSyncing_decoded net url w reply resp hurl hdo hdec]
    cases hr : resp.Result with
    | bool b => exact absurd hr (hbool b)
    | map entries => exact absurd hr (hmap entries)
    | _ => rfl
  exact ⟨h, by rw [healthHandler_ok net url w false h]; rfl⟩

/-- C3 at a JSON-RPC error reply, which has no `result` member. -/
theorem isNodeSyncing_other_result_witness :
    decode rpcErrorBody none = .ok { JSONRPC := ascii "2.0", ID := 1, Result := .nil } ∧
    (isNodeSyncing (Net.answering 200 rpcErrorBody) localURL
      World.init).1 = .ok false ∧
    (healthHandler (Net.answering 200 rpcErrorBody) localURL
      World.init).1.status = some 200 :=
  ⟨rfl, isNodeSyncing_other_result (Net.answering 200 rpcErrorBody)
    localURL World.init ⟨200, rpcErrorBody, none⟩
    { JSONRPC := ascii "2.0", ID := 1, Result := .nil } rfl rfl rfl
    (fun _ h => GoValue.noConfusion h) (fun _ h => GoValue.noConfusion h)⟩

/-- C4: whenever the prober succeeds, the answer of `/health` is fixed by the
returned boolean: 206 with body `Node is still syncing` for `true`, 200 with
body `Node is fully synced` for `false`.  In particular the reply of a synced
node gives the 200 answer and a reply with a progress object the 206 answer. -/
theorem healthHandler_reply_on_success (net : Net) (url : String) (w : World) (b : Bool)
    (h : (isNodeSyncing net url w).1 = .ok b) :
    (healthHandler net url w).1.status = some (if b then 206 else 200) ∧
    (healthHandler net url w).1.body
      = (if b then "Node is still syncing" else "Node is fully synced") ∧
    (∀ reply, net.clientDo w.calls (probeRequest url) = .ok reply → reply.body = syncedBody →
      (healthHandler net url w).1.status = some 200 ∧
      (healthHandler net url w).1.body = "Node is fully synced") ∧
    (∀ reply, net.clientDo w.calls (probeRequest url) = .ok reply → reply.body = syncingBody →
      (healthHandler net url w).1.status = some 206 ∧
      (healthHandler net url w).1.body = "Node is still syncing") := by
  have hurl : net.urlParse url = none := by
    cases hu : net.urlParse url with
    | none => rfl
    | some msg => rw [isNodeSyncing_rejected net url w msg hu] at h; cases h
  have hh := healthHandler_ok net url w b h
  refine ⟨by rw [hh], by rw [hh], ?_, ?_⟩
  · intro reply hdo hbody
    have hdec : decode reply.body reply.bodyErr
        = .ok { JSONRPC := ascii "2.0", ID := 1, Result := .bool false } := by
      rw [hbody]; rfl
    have hs := isNodeSyncing_decoded net url w reply _ hurl hdo hdec
    rw [healthHandler_ok net url w false hs]
    exact ⟨rfl, rfl⟩
  · intro reply hdo hbody
    have hdec : decode reply.body reply.bodyErr
        = .ok { JSONRPC := ascii "2.0", ID := 1,
                Result := .map [(ascii "startingBlock", .string (ascii "0x0")),
                  (ascii "currentBlock", .string (ascii "0x5")),
                  (ascii "highestBlock", .string (ascii "0xa"))] } := by
      rw [hbody]; rfl
    have hs := isNodeSyncing_decoded net url w reply _ hurl hdo hdec
    rw [healthHandler_ok net url w true hs]
    exact ⟨rfl, rfl⟩

/-- C4 at a syncing node: the prober returns `true` and the answer is 206
with its fixed body. -/
theorem healthHandler_reply_on_success_witness :
    (isNodeSyncing (Net.answering 200 syncingBody) localURL
      World.init).1 = .ok true ∧
    (healthHandler (Net.answering 200 syncingBody) localURL
      World.init).1.status = some 206 ∧
    (healthHandler (Net.answering 200 syncingBody) localURL
      World.init).1.body = "Node is still syncing" :=
  ⟨rfl, (healthHandler_reply_on_success (Net.answering 200 syncingBody)
      localURL World.init true rfl).1,
    (healthHandler_reply_on_success (Net.answering 200 syncingBody)
      localURL World.init true rfl).2.1⟩

/-- C5, as the code has it: after any failure of the prober, whatever the
step that failed, `/health` answers 500 with the fixed message followed by a
line feed, as `http.Error` writes it, and so never 200 or 206. -/
theorem healthHandler_reply_on_failure (net : Net) (url : String) (w : World) (e : ProbeError)
    (h : (isNodeSyncing net url w).1 = .error e) :
    (healthHandler net url w).1.status = some 500 ∧
    (healthHandler net url w).1.body = "Error checking sync status\n" ∧
    (healthHandler net url w).1.status ≠ some 200 ∧
    (healthHandler net url w).1.status ≠ some 206 := by
  have hh := healthHandler_error net url w e h
  refine ⟨by rw [hh], by rw [hh], ?_, ?_⟩ <;> rw [hh] <;> decide

/-- C5 at one failure of each kind: a URL that `http.NewRequest` rejects, a
timeout of the call, a body that is not JSON, and a body whose read times out.
Each time the answer is 500 with the same body. -/
theorem healthHandler_reply_on_failure_witness :
    ((healthHandler (Net.answering 200 syncedBody) newlineURL World.init).1.status
        = some 500 ∧
      (healthHandler (Net.answering 200 syncedBody) newlineURL World.init).1.body
        = "Error checking sync status\n") ∧
    ((healthHandler (Net.replying (.error .timeout)) localURL
        World.init).1.status = some 500 ∧
      (healthHandler (Net.replying (.error .timeout)) localURL
        World.init).1.body = "Error checking sync status\n") ∧
    ((healthHandler (Net.answering 502 htmlBody) localURL
        World.init).1.status = some 500 ∧
      (healthHandler (Net.answering 502 htmlBody) localURL
        World.init).1.body = "Error checking sync status\n") ∧
    ((healthHandler (Net.replying (.ok ⟨200, cutBody, some .timeout⟩))
        localURL World.init).1.status = some 500 ∧
      (healthHandler (Net.replying (.ok ⟨200, cutBody, some .timeout⟩))
        localURL World.init).1.body = "Error checking sync status\n") :=
  ⟨⟨(healthHandler_reply_on_failure (Net.answering 200 syncedBody) newlineURL
        World.init (.newRequest "net/url: invalid control character in URL") rfl).1,
      (healthHandler_reply_on_failure (Net.answering 200 syncedBody) newlineURL
        World.init (.newRequest "net/url: invalid control character in URL") rfl).2.1⟩,
    ⟨(healthHandler_reply_on_failure (Net.replying (.error .timeout)) localURL
        World.init (.transport .timeout) rfl).1,
      (healthHandler_reply_on_failure (Net.replying (.error .timeout)) localURL
        World.init (.transport .timeout) rfl).2.1⟩,
    ⟨(healthHandler_reply_on_failure (Net.answering 502 htmlBody)
        localURL World.init (.decode .scan) rfl).1,
      (healthHandler_reply_on_failure (Net.answering 502 htmlBody)
        localURL World.init (.decode .scan) rfl).2.1⟩,
    ⟨(healthHandler_reply_on_failure
        (Net.replying (.ok ⟨200, cutBody, some .timeout⟩))
        localURL World.init (.decode (.read .timeout)) rfl).1,
      (healthHandler_reply_on_failure
        (Net.replying (.ok ⟨200, cutBody, some .timeout⟩))
        localURL World.init (.decode (.read .timeout)) rfl).2.1⟩⟩

/-- C5 as stated fails: on a refused connection the prober fails and the body
of the 500 answer is not the bare message, it ends in a line feed. -/
theorem error_body_has_line_feed :
    (isNodeSyncing (Net.replying (.error .connectionRefused)) localURL
      World.init).1 = .error (.transport .connectionRefused) ∧
    (healthHandler (Net.replying (.error .connectionRefused)) localURL
      World.init).1.body = "Error checking sync status\n" ∧
    (healthHandler (Net.replying (.error .connectionRefused)) localURL
      World.init).1.body ≠ "Error checking sync status" :=
  ⟨rfl, rfl, by decide⟩

/-- C6, as the code has it: when no first JSON value can be read off the
body, or the first value does not fit the record (a top-level array, string,
number or boolean, an `id` that is neither `null` nor a 64-bit integer literal,
a `jsonrpc` that is neither `null` nor a string), `isNodeSyncing` fails with a
decoding error and `/health` answers 500. -/
theorem isNodeSyncing_undecodable_body (net : Net) (url : String) (w : World) (reply : Response)
    (hurl : net.urlParse url = none)
    (hdo : net.clientDo w.calls (probeRequest url) = .ok reply)
    (hbad : (∃ e, readValue reply.body reply.bodyErr = .error e) ∨
      (∃ v rest, readValue reply.body reply.bodyErr = .ok (v, rest) ∧ misfits v = true)) :
    (∃ e, (isNodeSyncing net url w).1 = .error (.decode e)) ∧
    (healthHandler net url w).1.status = some 500 := by
  have hdec : ∃ e, decode reply.body reply.bodyErr = .error e := by
    rcases hbad with ⟨e, he⟩ | ⟨v, rest, hr, hm⟩
    · exact ⟨e, decode_unreadable reply.body reply.bodyErr e he⟩
    · exact decode_misfit reply.body reply.bodyErr v rest hr hm
  obtain ⟨e, he⟩ := hdec
  have h := isNodeSyncing_undecoded net url w reply e hurl hdo he
  exact ⟨⟨e, h⟩, by rw [healthHandler_error net url w _ h]⟩

/-- C6 at an HTML error page, where no value can be read, and at a reply
whose `id` is a string, which does not fit the record. -/
theorem isNodeSyncing_undecodable_body_witness :
    (readValue htmlBody none = .error .scan ∧
      (∃ e, (isNodeSyncing (Net.answering 502 htmlBody) localURL
        World.init).1 = .error (.decode e)) ∧
      (healthHandler (Net.answering 502 htmlBody) localURL
        World.init).1.status = some 500) ∧
    ((∃ v rest, readValue stringIdBody none = .ok (v, rest) ∧ misfits v = true) ∧
      (∃ e, (isNodeSyncing (Net.answering 200 stringIdBody)
        localURL World.init).1 = .error (.decode e)) ∧
      (healthHandler (Net.answering 200 stringIdBody) localURL
        World.init).1.status = some 500) :=
  ⟨⟨rfl, isNodeSyncing_undecodable_body (Net.answering 502 htmlBody)
      localURL World.init ⟨502, htmlBody, none⟩ rfl rfl (Or.inl ⟨_, rfl⟩)⟩,
    ⟨⟨_, _, rfl, rfl⟩, isNodeSyncing_undecodable_body
      (Net.answering 200 stringIdBody) localURL World.init
      ⟨200, stringIdBody, none⟩ rfl rfl (Or.inr ⟨_, _, rfl, rfl⟩)⟩⟩

/-- C6 as stated fails: a body that is not JSON, the reply of a synced node
with a stray closing brace after it, is classified and answered with 200. -/
theorem trailing_bytes_are_not_read :
    isJSONText trailingBody = false ∧
    (isNodeSyncing (Net.answering 200 trailingBody) localURL
      World.init).1 = .ok false ∧
    (healthHandler (Net.answering 200 trailingBody) localURL
      World.init).1.status = some 200 ∧
    (healthHandler (Net.answering 200 trailingBody) localURL
      World.init).1.body = "Node is fully synced" :=
  ⟨rfl, rfl, rfl, rfl⟩

/-- C7: the request `isNodeSyncing` sends, when `http.NewRequest` accepts the
URL, is a POST to that URL with header `Content-Type: application/json` and the
fixed body, whatever the world and the network; no other call is made. -/
theorem isNodeSyncing_request (net : Net) (url : String) (w : World) :
    (isNodeSyncing net url w).2.calls = w.calls ++
      (match net.urlParse url with
        | none =>
          [{ method := "POST",
             url := url,
             header := [("Content-Type", "application/json")],
             body :=
              "\x7b\"jsonrpc\":\"2.0\",\"method\":\"eth_syncing\",\"params\":[],\"id\":1\x7d" }]
        | some _ => []) := by
  rw [isNodeSyncing_world]
  rfl

/-- C8: the URL handed to the prober is `http://localhost:8545` when
`ETH_NODE_URL` is unset or empty, and the value of the variable, unchanged,
when it is not empty. -/
theorem ethNodeURL_from_environment (environ : String → Option String) :
    ((environ "ETH_NODE_URL" = none ∨ environ "ETH_NODE_URL" = some "") →
      ethNodeURL environ = "http://localhost:8545") ∧
    (∀ value, value ≠ "" → environ "ETH_NODE_URL" = some value →
      ethNodeURL environ = value) ∧
    (∀ net w, serveHealth environ net w = healthHandler net (ethNodeURL environ) w) := by
  refine ⟨?_, ?_, fun _ _ => rfl⟩
  · rintro (h | h) <;> simp [ethNodeURL, getenv, h]
  · intro value hne h
    simp [ethNodeURL, getenv, h, hne]

/-- C8 at an unset variable, an empty one, and one with blanks around a URL. -/
theorem ethNodeURL_from_environment_witness :
    ethNodeURL (fun _ => none) = "http://localhost:8545" ∧
    ethNodeURL (environWith "") = "http://localhost:8545" ∧
    ethNodeURL (environWith " http://node:8545 ") = " http://node:8545 " :=
  ⟨(ethNodeURL_from_environment (fun _ => none)).1 (Or.inl rfl),
   (ethNodeURL_from_environment (environWith "")).1 (Or.inr rfl),
   (ethNodeURL_from_environment (environWith " http://node:8545 ")).2.1 _ (by decide) rfl⟩

/-- C9, as the code has it: an invocation of `isNodeSyncing` calls `client.Do`
once, with the request it built, when `http.NewRequest` accepts the URL,
whether or not that call succeeds, and not at all when it rejects the URL; the
HTTP requests sent during the invocation are those that `net/http` sends for
that one call, and no others.  A `/health` request invokes `isNodeSyncing` once
and reaches the network only through it, and its answer is a function of the
reply to that one call, not of anything seen before. -/
theorem probe_calls_per_invocation (net : Net) (url : String) (w : World) :
    (isNodeSyncing net url w).2.probes = w.probes + 1 ∧
    (isNodeSyncing net url w).2.calls = w.calls ++
      (match net.urlParse url with
        | none => [probeRequest url]
        | some _ => []) ∧
    (isNodeSyncing net url w).2.sent = w.sent ++
      (match net.urlParse url with
        | none => net.sent w.calls (probeRequest url)
        | some _ => []) ∧
    (healthHandler net url w).2.probes = w.probes + 1 ∧
    (healthHandler net url w).2.calls = w.calls ++
      (match net.urlParse url with
        | none => [probeRequest url]
        | some _ => []) ∧
    (healthHandler net url w).2.sent = w.sent ++
      (match net.urlParse url with
        | none => net.sent w.calls (probeRequest url)
        | some _ => []) ∧
    (∀ net2 w2, net2.urlParse url = net.urlParse url →
      net2.clientDo w2.calls (probeRequest url) = net.clientDo w.calls (probeRequest url) →
      (healthHandler net2 url w2).1 = (healthHandler net url w).1) := by
  have hw := isNodeSyncing_world net url w
  have hh := healthHandler_world net url w
  refine ⟨by rw [hw], by rw [hw], by rw [hw], by rw [hh.2.2, hw], by rw [hh.1, hw],
    by rw [hh.2.1, hw], ?_⟩
  intro net2 w2 hu hd
  have key : (isNodeSyncing net2 url w2).1 = (isNodeSyncing net url w).1 := by
    cases hp : net.urlParse url with
    | none =>
      rw [isNodeSyncing_accepted net url w hp, isNodeSyncing_accepted net2 url w2 (hu.trans hp), hd]
    | some msg =>
      rw [isNodeSyncing_rejected net url w msg hp,
        isNodeSyncing_rejected net2 url w2 msg (hu.trans hp)]
  cases hr : (isNodeSyncing net url w).1 with
  | error e =>
    rw [healthHandler_error net url w e hr, healthHandler_error net2 url w2 e (key.trans hr)]
  | ok b =>
    rw [healthHandler_ok net url w b hr, healthHandler_ok net2 url w2 b (key.trans hr)]

/-- C9 at two `/health` requests in a row, the node being synced at the first
and syncing at the second: each request calls `client.Do` once, two calls and
two requests sent in all, and the second answer is 206 although the first was
200. -/
theorem probe_calls_per_invocation_witness :
    (healthHandler syncedThenSyncing localURL World.init).1.status = some 200 ∧
    (healthHandler syncedThenSyncing localURL afterFirstRequest).1.status
      = some 206 ∧
    (healthHandler syncedThenSyncing localURL afterFirstRequest).2.calls
      = [probeRequest localURL, probeRequest localURL] ∧
    (healthHandler syncedThenSyncing localURL afterFirstRequest).2.sent
      = [probeRequest localURL, probeRequest localURL] ∧
    (healthHandler syncedThenSyncing localURL afterFirstRequest).2.probes = 2 :=
  ⟨rfl, rfl,
    (probe_calls_per_invocation syncedThenSyncing localURL
      afterFirstRequest).2.2.2.2.1,
    (probe_calls_per_invocation syncedThenSyncing localURL
      afterFirstRequest).2.2.2.2.2.1,
    (probe_calls_per_invocation syncedThenSyncing localURL
      afterFirstRequest).2.2.2.1⟩

/-- C9 as stated fails, three ways.  With a URL that ends in a line feed
`http.NewRequest` fails and the invocation makes no call at all.  With the URL
`localhost:8545`, which `http.NewRequest` accepts, `client.Do` is called and
fails without sending anything.  With an upstream that answers `307`, the one
call of `client.Do` sends the POST twice. -/
theorem outbound_calls_are_not_always_one :
    ((isNodeSyncing (Net.answering 200 syncedBody) newlineURL World.init).1
        = .error (.newRequest "net/url: invalid control character in URL") ∧
      (isNodeSyncing (Net.answering 200 syncedBody) newlineURL World.init).2.probes = 1 ∧
      (isNodeSyncing (Net.answering 200 syncedBody) newlineURL World.init).2.calls = [] ∧
      (isNodeSyncing (Net.answering 200 syncedBody) newlineURL World.init).2.sent = []) ∧
    ((isNodeSyncing Net.unsupportedScheme "localhost:8545" World.init).1
        = .error (.transport (.other "unsupported protocol scheme")) ∧
      (isNodeSyncing Net.unsupportedScheme "localhost:8545" World.init).2.calls
        = [probeRequest "localhost:8545"] ∧
      (isNodeSyncing Net.unsupportedScheme "localhost:8545" World.init).2.sent = []) ∧
    ((isNodeSyncing (Net.redirecting "http://node2:8545/" ⟨200, syncedBody, none⟩) localURL
        World.init).1 = .ok false ∧
      (isNodeSyncing (Net.redirecting "http://node2:8545/" ⟨200, syncedBody, none⟩) localURL
        World.init).2.calls = [probeRequest localURL] ∧
      ((isNodeSyncing (Net.redirecting "http://node2:8545/" ⟨200, syncedBody, none⟩) localURL
        World.init).2.sent.map fun r => (r.method, r.url))
        = [("POST", localURL), ("POST", "http://node2:8545/")]) :=
  ⟨⟨rfl, rfl, rfl, rfl⟩, ⟨rfl, rfl, rfl⟩, ⟨rfl, rfl, rfl⟩⟩

/-- C10: for two replies whose bodies decode to the same `result`, the
prober's outcome and the answer of `/health` are the same, whatever the two
status codes and whatever the `jsonrpc` and `id` of the two bodies. -/
theorem outcome_depends_on_result_only (net1 net2 : Net) (url1 url2 : String) (w1 w2 : World)
    (reply1 reply2 : Response) (resp1 resp2 : EthSyncingResponse)
    (hurl1 : net1.urlParse url1 = none) (hurl2 : net2.urlParse url2 = none)
    (hdo1 : net1.clientDo w1.calls (probeRequest url1) = .ok reply1)
    (hdo2 : net2.clientDo w2.calls (probeRequest url2) = .ok reply2)
    (hdec1 : decode reply1.body reply1.bodyErr = .ok resp1)
    (hdec2 : decode reply2.body reply2.bodyErr = .ok resp2)
    (hres : resp1.Result = resp2.Result) :
    (isNodeSyncing net1 url1 w1).1 = (isNodeSyncing net2 url2 w2).1 ∧
    (healthHandler net1 url1 w1).1 = (healthHandler net2 url2 w2).1 := by
  have key : (isNodeSyncing net1 url1 w1).1 = (isNodeSyncing net2 url2 w2).1 := by
    rw [isNodeSyncing_decoded net1 url1 w1 reply1 resp1 hurl1 hdo1 hdec1,
      isNodeSyncing_decoded net2 url2 w2 reply2 resp2 hurl2 hdo2 hdec2, hres]
  refine ⟨key, ?_⟩
  cases hr : (isNodeSyncing net2 url2 w2).1 with
  | error e =>
    rw [healthHandler_error net2 url2 w2 e hr, healthHandler_error net1 url1 w1 e (key.trans hr)]
  | ok b =>
    rw [healthHandler_ok net2 url2 w2 b hr, healthHandler_ok net1 url1 w1 b (key.trans hr)]

/-- C10 at a 200 reply and a 503 reply with another `jsonrpc` and `id`. -/
theorem outcome_depends_on_result_only_witness :
    decode syncedBody none = .ok { JSONRPC := ascii "2.0", ID := 1, Result := .bool false } ∧
    decode foreignIdBody none = .ok { JSONRPC := ascii "1.0", ID := 7, Result := .bool false } ∧
    (isNodeSyncing (Net.answering 200 syncedBody) localURL World.init).1
      = (isNodeSyncing (Net.answering 503 foreignIdBody) "http://node:8545"
          World.init).1 ∧
    (healthHandler (Net.answering 200 syncedBody) localURL World.init).1
      = (healthHandler (Net.answering 503 foreignIdBody) "http://node:8545"
          World.init).1 :=
  ⟨rfl, rfl, outcome_depends_on_result_only (Net.answering 200 syncedBody)
    (Net.answering 503 foreignIdBody) localURL "http://node:8545"
    World.init World.init ⟨200, syncedBody, none⟩ ⟨503, foreignIdBody, none⟩
    { JSONRPC := ascii "2.0", ID := 1, Result := .bool false }
    { JSONRPC := ascii "1.0", ID := 7, Result := .bool false } rfl rfl rfl rfl rfl rfl rfl⟩

end EthHealthcheck
